import Mathlib

/-!
Verification of the financial projection engine of the Moona portfolio
tracker (`backend/projection_service.py`), shallowly embedded in Lean 4.

Modelling conventions:
* Python floats are modelled as exact rationals (`ℚ`); the claims under
  study are about the algorithmic structure of the engine, not about
  binary floating-point rounding.
* Python's `round(x, 2)` rounds half-to-even; `roundHalfEven` reproduces
  that tie rule exactly on rationals.
* Python's `sorted` on numbers is an ascending stable sort; on rationals
  any ascending sort is extensionally equal, and we use
  `List.insertionSort (· ≤ ·)`.
* The global pseudo-random generator is modelled as an explicit stream
  `g : ℕ → ℚ` of standard normal draws consumed in call order;
  `random.gauss(mu, sigma)` becomes `mu + sigma * g k` for the next
  index `k`.  Each Monte Carlo trial consumes exactly `years` draws
  (one per simulated year), so trial `s` reads indices
  `s * years + 0 … s * years + (years - 1)`, and a second call to the
  simulator continues the stream at offset `numSimulations * years`.
* `datetime.now().year` is passed in as an explicit `current_year`
  argument (the code's optional parameter with the impure default).
* Optional ages are modelled as `Option ℕ` (the claims only involve
  non-negative ages); Python truthiness of `current_age` and
  `target_amount` (`0` is falsy) is reproduced explicitly.
-/

set_option maxRecDepth 100000

attribute [local semireducible] Rat.mul Rat.add Rat.sub Rat.inv

/-- Python's `int()` on a rational: truncation toward zero. -/
def pyInt (q : ℚ) : ℤ := if 0 ≤ q then ⌊q⌋ else ⌈q⌉

/-- Round a rational to the nearest integer, ties to the even integer:
Python's `round` tie rule (banker's rounding). -/
def roundHalfEven (x : ℚ) : ℤ :=
  if x - ⌊x⌋ < 1/2 then ⌊x⌋
  else if 1/2 < x - ⌊x⌋ then ⌊x⌋ + 1
  else if Even ⌊x⌋ then ⌊x⌋ else ⌊x⌋ + 1

/-- Python's `round(x, 2)`. -/
def round2 (q : ℚ) : ℚ := (roundHalfEven (q * 100) : ℚ) / 100

/-- Python's `round(x, 1)`. -/
def round1 (q : ℚ) : ℚ := (roundHalfEven (q * 10) : ℚ) / 10

/-- One recorded point of a projection path:
`{year: int, age: int|null, portfolioValue: float}`. -/
structure PathPoint where
  year : ℕ
  age : Option ℕ
  portfolioValue : ℚ
deriving DecidableEq, Repr

/-- The `age` field recorded by the engine:
`current_age + year if current_age else None` (note Python truthiness:
`current_age = 0` also yields `None`). -/
def pyAge (current_age : Option ℕ) (year : ℕ) : Option ℕ :=
  match current_age with
  | none => none
  | some a => if a = 0 then none else some (a + year)

/-- Python truthiness of the optional `target_amount` float
(`None` and `0.0` are falsy). -/
def targetTruthy (target_amount : Option ℚ) : Bool :=
  match target_amount with
  | none => false
  | some t => t ≠ 0

/-- Embeds `calculate_percentile(values, percentile)`: sort ascending, take the
element at index `int(n * percentile / 100)` clamped to the last index;
`0.0` on the empty list. -/
def calculate_percentile (values : List ℚ) (percentile : ℚ) : ℚ :=
  if values = [] then 0
  else
    let sorted_values := List.insertionSort (· ≤ ·) values
    let index : ℤ := min (pyInt (sorted_values.length * percentile / 100)) (sorted_values.length - 1)
    sorted_values.getD index.toNat 0

/-- The twelve monthly steps of one simulated year: each month adds this
year's contribution, then multiplies by the monthly growth factor `m`. -/
def yearLoop (c m : ℚ) : ℕ → ℚ → ℚ
  | 0, v => v
  | k + 1, v => yearLoop c m k ((v + c) * m)

/-- Portfolio value after `y` years of the deterministic projection
(the running `portfolio_value` of `calculate_deterministic_projection`,
before the 2-decimal rounding applied when a point is recorded):
year `y + 1` applies 12 monthly steps with contribution
`monthly_contribution * (1 + annual_contribution_increase_pct) ^ y`
and factor `1 + (expected_annual_return_pct / 12)`. -/
def detValue (cv mc inc r : ℚ) : ℕ → ℚ
  | 0 => cv
  | y + 1 => yearLoop (mc * (1 + inc) ^ y) (1 + r / 12) 12 (detValue cv mc inc r y)

/-- Embeds `calculate_deterministic_projection`: the loop over
`year in range(years + 1)` records the unrounded starting value at year 0
and `round(portfolio_value, 2)` afterwards. -/
def calculate_deterministic_projection
    (current_value monthly_contribution annual_contribution_increase_pct
      expected_annual_return_pct : ℚ) (years : ℕ) (current_age : Option ℕ) :
    List PathPoint :=
  (List.range (years + 1)).map fun year =>
    { year := year
      age := pyAge current_age year
      portfolioValue :=
        if year = 0 then current_value
        else round2 (detValue current_value monthly_contribution
          annual_contribution_increase_pct expected_annual_return_pct year) }

/-- Portfolio value of one Monte Carlo trial after `y` years: like
`detValue`, but year `y + 1` uses the random annual return
`random.gauss(expected_annual_return_pct, annual_volatility_pct)`,
modelled as `r + vol * d y` where `d y` is the trial's standard normal
draw for that year. -/
def mcValue (cv mc inc r vol : ℚ) (d : ℕ → ℚ) : ℕ → ℚ
  | 0 => cv
  | y + 1 => yearLoop (mc * (1 + inc) ^ y) (1 + (r + vol * d y) / 12) 12 (mcValue cv mc inc r vol d y)

/-- The recorded path of one Monte Carlo trial (unrounded starting value
at year 0, `round(portfolio_value, 2)` afterwards). -/
def mcPath (cv mc inc r vol : ℚ) (years : ℕ) (current_age : Option ℕ) (d : ℕ → ℚ) :
    List PathPoint :=
  (List.range (years + 1)).map fun year =>
    { year := year
      age := pyAge current_age year
      portfolioValue :=
        if year = 0 then cv else round2 (mcValue cv mc inc r vol d year) }

/-- The `target_age` guard of the FI check:
`target_age is None or (current_age and current_age + year <= target_age)`
(Python truthiness: `current_age` equal to `None` or `0` makes the
parenthesised conjunct falsy). -/
def fiCapOk (current_age target_age : Option ℕ) (year : ℕ) : Bool :=
  match target_age with
  | none => true
  | some ta =>
      match current_age with
      | none => false
      | some a => a ≠ 0 && a + year ≤ ta

/-- The FI year recorded by one trial: scanning years `1 … years` in
order, `fi_year` is set at the first year where the (unrounded) running
portfolio value has reached `target_amount` and the `target_age` guard
passes; it is never set when `target_amount` is `None` or `0` (Python
truthiness of `if target_amount`). -/
def fiYearOfTrial (cv mc inc r vol : ℚ) (years : ℕ)
    (current_age : Option ℕ) (target_amount : Option ℚ) (target_age : Option ℕ)
    (d : ℕ → ℚ) : Option ℕ :=
  if targetTruthy target_amount then
    (List.range' 1 years).find? fun year =>
      decide ((target_amount.getD 0) ≤ mcValue cv mc inc r vol d year)
        && fiCapOk current_age target_age year
  else none

/-- Embeds `run_monte_carlo_simulation`: `num_simulations` sequential trials;
trial `s` consumes the `years` standard normal draws
`g (s * years + 0) … g (s * years + (years - 1))` from the global
random stream `g`.  Returns `(paths, ending_values, fi_years)`: the
full path list (or only the first 10 when `return_all_paths` is false),
the unrounded final portfolio values, and the recorded FI years in
trial order. -/
def run_monte_carlo_simulation (cv mc inc r vol : ℚ) (years num_simulations : ℕ)
    (current_age : Option ℕ) (target_amount : Option ℚ) (target_age : Option ℕ)
    (return_all_paths : Bool) (g : ℕ → ℚ) :
    List (List PathPoint) × List ℚ × List ℕ :=
  let d : ℕ → ℕ → ℚ := fun s k => g (s * years + k)
  let all_paths := (List.range num_simulations).map fun s =>
    mcPath cv mc inc r vol years current_age (d s)
  let ending_values := (List.range num_simulations).map fun s =>
    mcValue cv mc inc r vol (d s) years
  let fi_years := (List.range num_simulations).filterMap fun s =>
    fiYearOfTrial cv mc inc r vol years current_age target_amount target_age (d s)
  (if return_all_paths then all_paths else all_paths.take 10, ending_values, fi_years)

/-- The per-year cross-section used by the path aggregators:
`[path[year]["portfolioValue"] for path in all_paths if year < len(path)]`. -/
def crossSection (all_paths : List (List PathPoint)) (year : ℕ) : List ℚ :=
  all_paths.filterMap fun path => (path.get? year).map (·.portfolioValue)

/-- The `age` recorded by the path aggregators:
`all_paths[0][year].get("age") if all_paths and year < len(all_paths[0]) else None`. -/
def pathAgeAt (all_paths : List (List PathPoint)) (year : ℕ) : Option ℕ :=
  match all_paths.head? with
  | none => none
  | some p0 =>
      match p0.get? year with
      | none => none
      | some pt => pt.age

/-- Embeds `calculate_median_path`: `[]` on an empty path list, otherwise one
point per year of `range(years + 1)` whose cross-section is non-empty,
carrying the rounded per-year 50th percentile. -/
def calculate_median_path (all_paths : List (List PathPoint)) (years : ℕ) :
    List PathPoint :=
  if all_paths = [] then []
  else
    (List.range (years + 1)).filterMap fun year =>
      let year_values := crossSection all_paths year
      if year_values = [] then none
      else some
        { year := year
          age := pathAgeAt all_paths year
          portfolioValue := round2 (calculate_percentile year_values 50) }

/-- Embeds `calculate_confidence_bands`: the p10 and p90 aggregate paths, built
exactly like `calculate_median_path` but at percentiles 10 and 90. -/
def calculate_confidence_bands (all_paths : List (List PathPoint)) (years : ℕ) :
    List PathPoint × List PathPoint :=
  if all_paths = [] then ([], [])
  else
    ((List.range (years + 1)).filterMap fun year =>
      let year_values := crossSection all_paths year
      if year_values = [] then none
      else some
        { year := year
          age := pathAgeAt all_paths year
          portfolioValue := round2 (calculate_percentile year_values 10) },
     (List.range (years + 1)).filterMap fun year =>
      let year_values := crossSection all_paths year
      if year_values = [] then none
      else some
        { year := year
          age := pathAgeAt all_paths year
          portfolioValue := round2 (calculate_percentile year_values 90) })

/-- Embeds `calculate_fi_estimate(fi_years, current_age, current_year)`:
`(None, None)` on an empty collection, otherwise the median FI-year
offset truncated with `int()` and added to the calendar year, and to
`current_age` when the latter is truthy (`if current_age:` — an age of
`0` behaves like an absent age).  The impure default
`current_year = datetime.now().year` is made an explicit argument. -/
def calculate_fi_estimate (fi_years : List ℕ) (current_age : Option ℕ)
    (current_year : ℤ) : Option ℤ × Option ℤ :=
  if fi_years = [] then (none, none)
  else
    let median_fi_year_offset := calculate_percentile (fi_years.map fun n : ℕ => (n : ℚ)) 50
    let median_fi_year := current_year + pyInt median_fi_year_offset
    let median_fi_age : Option ℤ :=
      match current_age with
      | none => none
      | some a => if a = 0 then none else some ((a : ℤ) + pyInt median_fi_year_offset)
    (some median_fi_year, median_fi_age)

/-- The `taxInfo` record returned by `calculate_tax_implications`. -/
structure TaxInfo where
  grossWithdrawal : ℚ
  taxAmount : ℚ
  netWithdrawal : ℚ
  withdrawalRatePct : ℚ
  taxRatePct : ℚ
deriving DecidableEq, Repr

/-- Embeds `calculate_tax_implications(portfolio_value, withdrawal_rate_pct,
effective_tax_rate_pct)`: both rate arguments are percentages and are
divided by 100. -/
def calculate_tax_implications (portfolio_value withdrawal_rate_pct
    effective_tax_rate_pct : ℚ) : TaxInfo :=
  let annual_withdrawal_gross := portfolio_value * (withdrawal_rate_pct / 100)
  let tax_amount := annual_withdrawal_gross * (effective_tax_rate_pct / 100)
  let annual_withdrawal_net := annual_withdrawal_gross - tax_amount
  { grossWithdrawal := round2 annual_withdrawal_gross
    taxAmount := round2 tax_amount
    netWithdrawal := round2 annual_withdrawal_net
    withdrawalRatePct := withdrawal_rate_pct
    taxRatePct := effective_tax_rate_pct }

/-- The `summary` object of a `ProjectionResult`. -/
structure Summary where
  medianEndingValue : ℚ
  p10EndingValue : ℚ
  p90EndingValue : ℚ
  probabilityOfHittingTarget : Option ℚ
  estimatedFIYear : Option ℤ
  estimatedFIAge : Option ℤ
  taxInfo : Option TaxInfo
deriving DecidableEq, Repr

/-- The full output of `ProjectionService.calculate_projection`. -/
structure ProjectionResult where
  deterministicPath : List PathPoint
  monteCarloPathsSample : List (List PathPoint)
  medianPath : List PathPoint
  p10Path : List PathPoint
  p90Path : List PathPoint
  summary : Summary
deriving DecidableEq, Repr

namespace ProjectionService

/-- Embeds `ProjectionService.calculate_projection`: the orchestration.  Note
that the source calls `run_monte_carlo_simulation` twice — once with
`return_all_paths=False` for the UI sample, the ending values and the
FI years, and once more with `return_all_paths=True` for the aggregate
paths — so the second call continues the random stream at offset
`num_simulations * years`. -/
def calculate_projection (cv mc inc r vol : ℚ) (years : ℕ)
    (current_age : Option ℕ) (target_amount : Option ℚ) (target_age : Option ℕ)
    (effective_tax_rate_pct : ℚ) (num_simulations : ℕ)
    (current_year : ℤ) (g : ℕ → ℚ) : ProjectionResult :=
  let deterministic_path := calculate_deterministic_projection cv mc inc r years current_age
  let first := run_monte_carlo_simulation cv mc inc r vol years num_simulations
    current_age target_amount target_age false g
  let sample_paths := first.1
  let ending_values := first.2.1
  let fi_years := first.2.2
  let all_paths := (run_monte_carlo_simulation cv mc inc r vol years num_simulations
    current_age target_amount target_age true
    (fun n => g (num_simulations * years + n))).1
  let median_ending := calculate_percentile ending_values 50
  let p10_ending := calculate_percentile ending_values 10
  let p90_ending := calculate_percentile ending_values 90
  let probability_hitting_target : Option ℚ :=
    if targetTruthy target_amount then
      some (if ending_values = [] then 0
        else ((ending_values.countP fun v =>
          decide ((target_amount.getD 0) ≤ v)) : ℚ) / ending_values.length * 100)
    else none
  let fi := calculate_fi_estimate fi_years current_age current_year
  let median_path := calculate_median_path all_paths years
  let bands := calculate_confidence_bands all_paths years
  let tax_info : Option TaxInfo :=
    if targetTruthy target_amount && decide (0 < effective_tax_rate_pct) then
      let t := target_amount.getD 0
      let final_value := if median_ending ≥ t then median_ending else t
      some (calculate_tax_implications final_value 4 effective_tax_rate_pct)
    else none
  { deterministicPath := deterministic_path
    monteCarloPathsSample := sample_paths
    medianPath := median_path
    p10Path := bands.1
    p90Path := bands.2
    summary :=
      { medianEndingValue := round2 median_ending
        p10EndingValue := round2 p10_ending
        p90EndingValue := round2 p90_ending
        probabilityOfHittingTarget := probability_hitting_target.map round1
        estimatedFIYear := fi.1
        estimatedFIAge := fi.2
        taxInfo := tax_info } }

end ProjectionService

/-! ### Helper lemmas about the rounding primitives -/

theorem roundHalfEven_ge_floor (x : ℚ) : ⌊x⌋ ≤ roundHalfEven x := by
  unfold roundHalfEven
  split_ifs <;> omega

theorem roundHalfEven_le_floor_add_one (x : ℚ) : roundHalfEven x ≤ ⌊x⌋ + 1 := by
  unfold roundHalfEven
  split_ifs <;> omega

theorem roundHalfEven_mono : Monotone roundHalfEven := by
  intro x y h
  rcases lt_or_le ⌊x⌋ ⌊y⌋ with hf | hf
  · calc roundHalfEven x ≤ ⌊x⌋ + 1 := roundHalfEven_le_floor_add_one x
      _ ≤ ⌊y⌋ := by omega
      _ ≤ roundHalfEven y := roundHalfEven_ge_floor y
  · have hfe : ⌊x⌋ = ⌊y⌋ := le_antisymm (Int.floor_mono h) hf
    have hfrac : x - (⌊x⌋ : ℚ) ≤ y - (⌊y⌋ : ℚ) := by
      rw [hfe]
      exact sub_le_sub_right h _
    unfold roundHalfEven
    rw [hfe]
    rw [hfe] at hfrac
    split_ifs with h1 h2 h3 h4 h5 <;> first
      | omega
      | (exfalso; linarith)

theorem round2_mono {x y : ℚ} (h : x ≤ y) : round2 x ≤ round2 y := by
  unfold round2
  have : roundHalfEven (x * 100) ≤ roundHalfEven (y * 100) :=
    roundHalfEven_mono (by linarith)
  have hc : ((roundHalfEven (x * 100) : ℤ) : ℚ) ≤ ((roundHalfEven (y * 100) : ℤ) : ℚ) := by
    exact_mod_cast this
  linarith

/-! ### Helper lemmas about `calculate_percentile` -/

theorem pyInt_mono_nonneg {a b : ℚ} (ha : 0 ≤ a) (hab : a ≤ b) : pyInt a ≤ pyInt b := by
  unfold pyInt
  rw [if_pos ha, if_pos (le_trans ha hab)]
  exact Int.floor_mono hab

theorem sorted_getD_mono (s : List ℚ) (hs : List.Sorted (· ≤ ·) s) {i j : ℕ}
    (hij : i ≤ j) (hj : j < s.length) : s.getD i 0 ≤ s.getD j 0 := by
  have hi : i < s.length := lt_of_le_of_lt hij hj
  rw [List.getD_eq_getElem _ _ hi, List.getD_eq_getElem _ _ hj]
  have := hs.rel_get_of_le (a := ⟨i, hi⟩) (b := ⟨j, hj⟩) (by exact hij)
  simpa using this

/-- The (clamped) index used by `calculate_percentile` stays inside the
sorted list. -/
theorem percentile_index_lt (n : ℕ) (hn : 0 < n) (x : ℤ) :
    (min x ((n : ℤ) - 1)).toNat < n := by
  have h1 : min x ((n : ℤ) - 1) ≤ (n : ℤ) - 1 := min_le_right _ _
  omega

/-- A percentile of a non-empty list is one of its elements
(nearest-rank percentiles interpolate nothing). -/
theorem calculate_percentile_mem (l : List ℚ) (p : ℚ) (h : l ≠ []) :
    calculate_percentile l p ∈ l := by
  unfold calculate_percentile
  rw [if_neg h]
  have hlen : (List.insertionSort (· ≤ ·) l).length = l.length :=
    List.length_insertionSort _ l
  have hpos : 0 < (List.insertionSort (· ≤ ·) l).length := by
    rw [hlen]
    exact List.length_pos.mpr h
  rw [List.getD_eq_getElem _ _ (percentile_index_lt _ hpos _)]
  exact (List.perm_insertionSort (· ≤ ·) l).subset (List.getElem_mem _)

/-- For `0 ≤ p ≤ q`, the `p`-th nearest-rank percentile of a list is at
most its `q`-th: the index is monotone in the percentile and the sorted
list is ascending. -/
theorem calculate_percentile_mono_p (l : List ℚ) {p q : ℚ} (hp : 0 ≤ p) (hpq : p ≤ q) :
    calculate_percentile l p ≤ calculate_percentile l q := by
  by_cases h : l = []
  · subst h
    simp [calculate_percentile]
  · unfold calculate_percentile
    rw [if_neg h, if_neg h]
    have hlen : (List.insertionSort (· ≤ ·) l).length = l.length :=
      List.length_insertionSort _ l
    have hpos : 0 < (List.insertionSort (· ≤ ·) l).length := by
      rw [hlen]
      exact List.length_pos.mpr h
    apply sorted_getD_mono _ (List.sorted_insertionSort _ l)
    · apply Int.toNat_le_toNat
      apply min_le_min _ le_rfl
      apply pyInt_mono_nonneg
      · apply div_nonneg _ (by norm_num)
        exact mul_nonneg (Nat.cast_nonneg _) hp
      · gcongr
    · exact percentile_index_lt _ hpos _

/-! ### C1: nearest-rank percentile -/

/-- Modelled from the spec's words (§4.3): "return the value at
`floor(p/100 * n)` of the ascending-sorted list, clamped to the last
index".  Kept separate from `calculate_percentile` (which is translated
from the source) so the two can be compared. -/
def specNearestRank (l : List ℚ) (p : ℚ) : ℚ :=
  (List.insertionSort (· ≤ ·) l).getD
    (min (⌊p / 100 * (l.length : ℚ)⌋).toNat (l.length - 1)) 0

/-- C1: on every non-empty list and percentile `p ∈ [0, 100]`,
`calculate_percentile` returns the element of the ascending-sorted list
at index `⌊p/100 * n⌋` clamped to the last index (nearest-rank, not
interpolated); in particular percentile 50 of the 100 evenly spaced
values `[10, 20, …, 1000]` is the element at sorted index 50, i.e.
`510`, and percentile 10 of `[1, …, 100]` is the element at index 10,
i.e. `11`. -/
theorem percentile_is_nearest_rank :
    (∀ (l : List ℚ) (p : ℚ), l ≠ [] → 0 ≤ p → p ≤ 100 →
      calculate_percentile l p = specNearestRank l p)
    ∧ calculate_percentile ((List.range 100).map fun i => (10 * ((i : ℚ) + 1))) 50 = 510
    ∧ calculate_percentile ((List.range 100).map fun i => ((i : ℚ) + 1)) 10 = 11
    ∧ ((List.range 100).map fun i => (10 * ((i : ℚ) + 1))).length = 100
    ∧ (List.insertionSort (· ≤ ·) ((List.range 100).map fun i => (10 * ((i : ℚ) + 1)))).getD 50 0 = 510
    ∧ (List.insertionSort (· ≤ ·) ((List.range 100).map fun i => ((i : ℚ) + 1))).getD 10 0 = 11 := by
  refine ⟨?_, by decide, by decide, by decide, by decide, by decide⟩
  intro l p hne hp0 hp100
  unfold calculate_percentile specNearestRank
  rw [if_neg hne]
  have hlen : (List.insertionSort (· ≤ ·) l).length = l.length :=
    List.length_insertionSort _ l
  have hn : 0 < l.length := List.length_pos.mpr hne
  have hfl : pyInt ((l.length : ℚ) * p / 100) = ⌊p / 100 * (l.length : ℚ)⌋ := by
    unfold pyInt
    rw [if_pos (div_nonneg (mul_nonneg (Nat.cast_nonneg _) hp0) (by norm_num))]
    congr 1
    ring
  have hflnn : 0 ≤ ⌊p / 100 * (l.length : ℚ)⌋ := by
    apply Int.floor_nonneg.mpr
    exact mul_nonneg (div_nonneg hp0 (by norm_num)) (Nat.cast_nonneg _)
  simp only [hlen, hfl]
  congr 1
  omega

/-- C1 witness: the general nearest-rank statement applied at the
concrete input `l = [3, 1, 2]`, `p = 50`. -/
theorem percentile_is_nearest_rank_witness :
    calculate_percentile [3, 1, 2] 50 = specNearestRank [3, 1, 2] 50 :=
  percentile_is_nearest_rank.1 [3, 1, 2] 50 (by decide) (by decide) (by decide)

/-! ### C10: totality of `calculate_percentile` on the empty list -/

/-- C10: `calculate_percentile` is total on the empty list: for every
percentile `p` it returns `0.0` instead of raising, so every downstream
aggregation fed an empty population gets the `0.0` default rather than
an index error. -/
theorem percentile_empty_returns_zero : ∀ p : ℚ, calculate_percentile [] p = 0 :=
  fun _ => rfl

/-! ### C2: the deterministic path builder -/

/-- Modelled from the spec's words (§4.1 / C2): the portfolio value
after `y` years obtained by iterating, for each year, 12 monthly steps
`value = (value + monthlyContribution * (1 + inc)^(year-1)) * (1 + r/12)`.
Kept separate from `detValue` (translated from the source loop) so the
two can be compared. -/
def specYearValue (cv mc inc r : ℚ) : ℕ → ℚ
  | 0 => cv
  | y + 1 => ((fun v => (v + mc * (1 + inc) ^ y) * (1 + r / 12))^[12])
      (specYearValue cv mc inc r y)

theorem yearLoop_eq_iterate (c m : ℚ) (n : ℕ) (v : ℚ) :
    yearLoop c m n v = ((fun v => (v + c) * m)^[n]) v := by
  induction n generalizing v with
  | zero => rfl
  | succ k ih =>
      rw [yearLoop, ih, Function.iterate_succ_apply]

theorem detValue_eq_specYearValue (cv mc inc r : ℚ) (y : ℕ) :
    detValue cv mc inc r y = specYearValue cv mc inc r y := by
  induction y with
  | zero => rfl
  | succ k ih =>
      rw [detValue, specYearValue, yearLoop_eq_iterate, ih]

/-- C2: for every request the deterministic builder returns exactly
`years + 1` points; point 0 carries the starting value unmodified, and
the point of year `y ≥ 1` carries the value of the spec's monthly
recurrence rounded to 2 decimals.  With `years = 0` only the year-0
point is returned, and the concrete request
`currentValue=10000, monthlyContribution=0, inc=0, return=0, years=5`
yields the flat path `[10000, 10000, 10000, 10000, 10000, 10000]`. -/
theorem deterministic_projection_spec :
    (∀ (cv mc inc r : ℚ) (years : ℕ) (age : Option ℕ),
      (calculate_deterministic_projection cv mc inc r years age).length = years + 1
      ∧ ∀ (y : ℕ) (hy : y < (calculate_deterministic_projection cv mc inc r years age).length),
          (calculate_deterministic_projection cv mc inc r years age).get ⟨y, hy⟩ =
            { year := y
              age := pyAge age y
              portfolioValue := if y = 0 then cv else round2 (specYearValue cv mc inc r y) })
    ∧ (∀ (cv mc inc r : ℚ) (age : Option ℕ),
        calculate_deterministic_projection cv mc inc r 0 age
          = [{ year := 0, age := pyAge age 0, portfolioValue := cv }])
    ∧ (calculate_deterministic_projection 10000 0 0 0 5 none).map (·.portfolioValue)
        = [10000, 10000, 10000, 10000, 10000, 10000] := by
  refine ⟨?_, ?_, by decide⟩
  · intro cv mc inc r years age
    constructor
    · simp [calculate_deterministic_projection]
    · intro y hy
      simp [calculate_deterministic_projection, detValue_eq_specYearValue]
  · intro cv mc inc r age
    simp [calculate_deterministic_projection, List.range_succ]

/-- C2 witness: the pointwise description applied at a concrete
request. -/
theorem deterministic_projection_spec_witness :
    (calculate_deterministic_projection 1 0 0 0 1 none).get ⟨0, by decide⟩ =
      { year := 0
        age := pyAge none 0
        portfolioValue := if 0 = 0 then (1 : ℚ) else round2 (specYearValue 1 0 0 0 0) } :=
  (deterministic_projection_spec.1 1 0 0 0 1 none).2 0 (by decide)

/-! ### C3: zero volatility degenerates to the deterministic path -/

theorem mcValue_zero_vol (cv mc inc r : ℚ) (d : ℕ → ℚ) (y : ℕ) :
    mcValue cv mc inc r 0 d y = detValue cv mc inc r y := by
  induction y with
  | zero => rfl
  | succ k ih => rw [mcValue, detValue, ih, zero_mul, add_zero]

theorem mcPath_zero_vol (cv mc inc r : ℚ) (years : ℕ) (age : Option ℕ) (d : ℕ → ℚ) :
    mcPath cv mc inc r 0 years age d = calculate_deterministic_projection cv mc inc r years age := by
  simp only [mcPath, calculate_deterministic_projection, mcValue_zero_vol]

/-- C3: with `annualVolatilityPct = 0`, every Monte Carlo path — for any
state of the random stream `g` — is point-for-point identical to the
deterministic path of the same request: the returned path list is a
replication of the deterministic path (all `num_simulations` of them,
or the 10-path UI sample). -/
theorem zero_volatility_paths_equal_deterministic :
    ∀ (cv mc inc r : ℚ) (years num_simulations : ℕ) (age : Option ℕ)
      (target : Option ℚ) (ta : Option ℕ) (b : Bool) (g : ℕ → ℚ),
      (run_monte_carlo_simulation cv mc inc r 0 years num_simulations age target ta b g).1
        = List.replicate (if b then num_simulations else min 10 num_simulations)
            (calculate_deterministic_projection cv mc inc r years age) := by
  intro cv mc inc r years num_simulations age target ta b g
  unfold run_monte_carlo_simulation
  simp only [mcPath_zero_vol]
  cases b with
  | true => simp
  | false => simp [List.take_replicate]

/-! ### C6: per-year percentile ordering of the aggregate paths -/

/-- The point the aggregators (`calculate_median_path`,
`calculate_confidence_bands`) record for one year at percentile `p`. -/
def bandPoint (all_paths : List (List PathPoint)) (p : ℚ) (year : ℕ) : Option PathPoint :=
  let year_values := crossSection all_paths year
  if year_values = [] then none
  else some
    { year := year
      age := pathAgeAt all_paths year
      portfolioValue := round2 (calculate_percentile year_values p) }

theorem calculate_median_path_eq (all_paths : List (List PathPoint)) (years : ℕ) :
    calculate_median_path all_paths years =
      if all_paths = [] then []
      else (List.range (years + 1)).filterMap (bandPoint all_paths 50) := rfl

theorem calculate_confidence_bands_eq (all_paths : List (List PathPoint)) (years : ℕ) :
    calculate_confidence_bands all_paths years =
      if all_paths = [] then ([], [])
      else ((List.range (years + 1)).filterMap (bandPoint all_paths 10),
            (List.range (years + 1)).filterMap (bandPoint all_paths 90)) := rfl

theorem filterMap_length_eq_of_isSome_eq {α β : Type _} (f g : α → Option β)
    (hsome : ∀ a, (f a).isSome = (g a).isSome) :
    ∀ l : List α, (l.filterMap f).length = (l.filterMap g).length := by
  intro l
  induction l with
  | nil => rfl
  | cons a t ih =>
      rcases hf : f a with _ | b₁
      · have hg : g a = none := by
          have h := hsome a
          rw [hf] at h
          simpa using h.symm
        simp [List.filterMap_cons, hf, hg, ih]
      · have h := hsome a
        rw [hf] at h
        obtain ⟨b₂, hg⟩ := Option.isSome_iff_exists.mp h.symm
        simp [List.filterMap_cons, hf, hg, ih]

theorem filterMap_getD_rel {α β : Type _} (f g : α → Option β) (R : β → β → Prop)
    (hsome : ∀ a, (f a).isSome = (g a).isSome)
    (hR : ∀ a b₁ b₂, f a = some b₁ → g a = some b₂ → R b₁ b₂) :
    ∀ (l : List α) (i : ℕ) (d₁ d₂ : β), i < (l.filterMap f).length →
      R ((l.filterMap f).getD i d₁) ((l.filterMap g).getD i d₂) := by
  intro l
  induction l with
  | nil =>
      intro i d₁ d₂ hi
      simp at hi
  | cons a t ih =>
      intro i d₁ d₂ hi
      rcases hf : f a with _ | b₁
      · have hg : g a = none := by
          have h := hsome a
          rw [hf] at h
          simpa using h.symm
        rw [List.filterMap_cons_none hf] at hi ⊢
        rw [List.filterMap_cons_none hg]
        exact ih i d₁ d₂ hi
      · have h := hsome a
        rw [hf] at h
        obtain ⟨b₂, hg⟩ := Option.isSome_iff_exists.mp h.symm
        rw [List.filterMap_cons_some hf] at hi ⊢
        rw [List.filterMap_cons_some hg]
        cases i with
        | zero =>
            simpa using hR a b₁ b₂ hf hg
        | succ j =>
            simp only [List.getD_cons_succ]
            exact ih j d₁ d₂ (by simpa using hi)

theorem bandPoint_isSome_eq (all_paths : List (List PathPoint)) (p q : ℚ) (year : ℕ) :
    (bandPoint all_paths p year).isSome = (bandPoint all_paths q year).isSome := by
  unfold bandPoint
  by_cases hc : crossSection all_paths year = [] <;> simp [hc]

theorem bandPoint_rel (all_paths : List (List PathPoint)) {p q : ℚ}
    (hp : 0 ≤ p) (hpq : p ≤ q) (year : ℕ) (b₁ b₂ : PathPoint)
    (h₁ : bandPoint all_paths p year = some b₁)
    (h₂ : bandPoint all_paths q year = some b₂) :
    b₁.portfolioValue ≤ b₂.portfolioValue := by
  unfold bandPoint at h₁ h₂
  by_cases hc : crossSection all_paths year = []
  · simp [hc] at h₁
  · simp only [hc, if_neg, if_false] at h₁ h₂
    rw [← Option.some_inj.mp h₁, ← Option.some_inj.mp h₂]
    exact round2_mono (calculate_percentile_mono_p _ hp hpq)

/-- The aggregators' per-index ordering, for an arbitrary collection of
paths: entry `i` of the p10 band is at most entry `i` of the median
path, which is at most entry `i` of the p90 band. -/
theorem bands_ordered_general (all_paths : List (List PathPoint)) (years i : ℕ) :
    ((calculate_confidence_bands all_paths years).1.getD i ⟨0, none, 0⟩).portfolioValue
      ≤ ((calculate_median_path all_paths years).getD i ⟨0, none, 0⟩).portfolioValue
    ∧ ((calculate_median_path all_paths years).getD i ⟨0, none, 0⟩).portfolioValue
      ≤ ((calculate_confidence_bands all_paths years).2.getD i ⟨0, none, 0⟩).portfolioValue := by
  rw [calculate_median_path_eq, calculate_confidence_bands_eq]
  by_cases h : all_paths = []
  · simp [h]
  · rw [if_neg h, if_neg h]
    have h1050 := bandPoint_isSome_eq all_paths 10 50
    have h5090 := bandPoint_isSome_eq all_paths 50 90
    have hlen1050 := filterMap_length_eq_of_isSome_eq _ _ h1050 (List.range (years + 1))
    have hlen5090 := filterMap_length_eq_of_isSome_eq _ _ h5090 (List.range (years + 1))
    rcases lt_or_le i ((List.range (years + 1)).filterMap (bandPoint all_paths 10)).length
      with hi | hi
    · have hi50 : i < ((List.range (years + 1)).filterMap (bandPoint all_paths 50)).length := by
        omega
      constructor
      · exact filterMap_getD_rel _ _ (fun b₁ b₂ => b₁.portfolioValue ≤ b₂.portfolioValue)
          h1050 (fun y b₁ b₂ => bandPoint_rel all_paths (by norm_num) (by norm_num) y b₁ b₂)
          _ i _ _ hi
      · exact filterMap_getD_rel _ _ (fun b₁ b₂ => b₁.portfolioValue ≤ b₂.portfolioValue)
          h5090 (fun y b₁ b₂ => bandPoint_rel all_paths (by norm_num) (by norm_num) y b₁ b₂)
          _ i _ _ hi50
    · have hi50 : ((List.range (years + 1)).filterMap (bandPoint all_paths 50)).length ≤ i := by
        omega
      have hi90 : ((List.range (years + 1)).filterMap (bandPoint all_paths 90)).length ≤ i := by
        omega
      rw [List.getD_eq_default _ _ hi, List.getD_eq_default _ _ hi50,
        List.getD_eq_default _ _ hi90]
      exact ⟨le_refl _, le_refl _⟩

/-- C6: in every `ProjectionResult` — whatever the realisation of the
random draws — each year index satisfies
`p10Path[i].portfolioValue ≤ medianPath[i].portfolioValue ≤
p90Path[i].portfolioValue`: all three are nearest-rank percentiles of
the same sorted per-year cross-section, and 2-decimal rounding is
monotone. -/
theorem projection_bands_ordered :
    ∀ (cv mc inc r vol tax : ℚ) (years num_simulations : ℕ) (age : Option ℕ)
      (target : Option ℚ) (ta : Option ℕ) (cy : ℤ) (g : ℕ → ℚ) (i : ℕ),
      (((ProjectionService.calculate_projection cv mc inc r vol years age target ta tax
          num_simulations cy g).p10Path.getD i ⟨0, none, 0⟩).portfolioValue
        ≤ (((ProjectionService.calculate_projection cv mc inc r vol years age target ta tax
          num_simulations cy g).medianPath.getD i ⟨0, none, 0⟩)).portfolioValue)
      ∧ ((((ProjectionService.calculate_projection cv mc inc r vol years age target ta tax
          num_simulations cy g).medianPath.getD i ⟨0, none, 0⟩)).portfolioValue
        ≤ (((ProjectionService.calculate_projection cv mc inc r vol years age target ta tax
          num_simulations cy g).p90Path.getD i ⟨0, none, 0⟩)).portfolioValue) := by
  intro cv mc inc r vol tax years num_simulations age target ta cy g i
  exact bands_ordered_general _ years i

/-! ### C7: path lengths, year sequences, sample size -/

theorem filterMap_eq_map_of_forall_some {α β : Type _} (f : α → Option β) (g : α → β) :
    ∀ l : List α, (∀ a ∈ l, f a = some (g a)) → l.filterMap f = l.map g := by
  intro l
  induction l with
  | nil => intro _; rfl
  | cons a t ih =>
      intro h
      rw [List.filterMap_cons_some (h a (by simp)), List.map_cons,
        ih fun x hx => h x (by simp [hx])]

theorem map_year_range (f : ℕ → PathPoint) (hf : ∀ y, (f y).year = y) (n : ℕ) :
    ((List.range n).map f).map (·.year) = List.range n := by
  rw [List.map_map]
  have hcomp : ((fun x : PathPoint => x.year) ∘ f) = fun y => y := by
    funext y
    exact hf y
  rw [hcomp, List.map_id']

theorem crossSection_ne_nil (ap : List (List PathPoint)) (y : ℕ) (hne : ap ≠ [])
    (hlen : ∀ p ∈ ap, y < p.length) : crossSection ap y ≠ [] := by
  obtain ⟨p, hp⟩ := List.exists_mem_of_ne_nil ap hne
  have hy : y < p.length := hlen p hp
  intro h
  have hmem : (p.get ⟨y, hy⟩).portfolioValue ∈ crossSection ap y := by
    apply List.mem_filterMap.mpr
    refine ⟨p, hp, ?_⟩
    rw [List.get?_eq_get hy]
    rfl
  rw [h] at hmem
  simp at hmem

theorem aggregate_path_shape (ap : List (List PathPoint)) (p : ℚ) (years : ℕ)
    (hne : ap ≠ []) (hlen : ∀ q ∈ ap, q.length = years + 1) :
    ((List.range (years + 1)).filterMap (bandPoint ap p)).length = years + 1
    ∧ ((List.range (years + 1)).filterMap (bandPoint ap p)).map (·.year)
        = List.range (years + 1) := by
  have hmap : (List.range (years + 1)).filterMap (bandPoint ap p) =
      (List.range (years + 1)).map fun y =>
        { year := y
          age := pathAgeAt ap y
          portfolioValue := round2 (calculate_percentile (crossSection ap y) p) } := by
    apply filterMap_eq_map_of_forall_some
    intro y hy
    have hcs : crossSection ap y ≠ [] := by
      apply crossSection_ne_nil ap y hne
      intro q hq
      rw [hlen q hq]
      exact List.mem_range.mp hy
    unfold bandPoint
    simp [hcs]
  rw [hmap]
  constructor
  · simp
  · exact map_year_range _ (fun y => rfl) _

theorem mcPath_length (cv mc inc r vol : ℚ) (years : ℕ) (age : Option ℕ) (d : ℕ → ℚ) :
    (mcPath cv mc inc r vol years age d).length = years + 1 := by
  simp [mcPath]

theorem mcPath_years (cv mc inc r vol : ℚ) (years : ℕ) (age : Option ℕ) (d : ℕ → ℚ) :
    (mcPath cv mc inc r vol years age d).map (·.year) = List.range (years + 1) := by
  simp only [mcPath]
  exact map_year_range _ (fun y => rfl) _

/-- C7: for a valid request (`years ≥ 1`, `numSimulations ≥ 1`) the
deterministic path, every sampled Monte Carlo path and the three
aggregate paths all have `years + 1` points whose `year` fields form
`0, 1, …, years` with no gaps, and the UI sample holds
`min numSimulations 10` paths. -/
theorem projection_path_lengths :
    ∀ (cv mc inc r vol tax : ℚ) (years num_simulations : ℕ) (age : Option ℕ)
      (target : Option ℚ) (ta : Option ℕ) (cy : ℤ) (g : ℕ → ℚ) (res : ProjectionResult),
      res = ProjectionService.calculate_projection cv mc inc r vol years age target ta tax
        num_simulations cy g →
      1 ≤ years → 1 ≤ num_simulations →
      (res.deterministicPath.length = years + 1
        ∧ res.deterministicPath.map (·.year) = List.range (years + 1))
      ∧ (∀ path ∈ res.monteCarloPathsSample,
          path.length = years + 1 ∧ path.map (·.year) = List.range (years + 1))
      ∧ res.monteCarloPathsSample.length = min num_simulations 10
      ∧ (res.medianPath.length = years + 1
        ∧ res.medianPath.map (·.year) = List.range (years + 1))
      ∧ (res.p10Path.length = years + 1
        ∧ res.p10Path.map (·.year) = List.range (years + 1))
      ∧ (res.p90Path.length = years + 1
        ∧ res.p90Path.map (·.year) = List.range (years + 1)) := by
  intro cv mc inc r vol tax years num_simulations age target ta cy g res hres hy hn
  subst hres
  have hsample : (ProjectionService.calculate_projection cv mc inc r vol years age target ta tax
      num_simulations cy g).monteCarloPathsSample =
      ((List.range num_simulations).map fun s =>
        mcPath cv mc inc r vol years age fun k => g (s * years + k)).take 10 := rfl
  have hap : ∀ g' : ℕ → ℚ,
      ((List.range num_simulations).map fun s =>
        mcPath cv mc inc r vol years age fun k => g' (s * years + k)) ≠ []
      ∧ ∀ q ∈ ((List.range num_simulations).map fun s =>
          mcPath cv mc inc r vol years age fun k => g' (s * years + k)), q.length = years + 1 := by
    intro g'
    constructor
    · simp only [ne_eq, List.map_eq_nil_iff, List.range_eq_nil]
      omega
    · intro q hq
      obtain ⟨s, _, rfl⟩ := List.mem_map.mp hq
      exact mcPath_length cv mc inc r vol years age _
  refine ⟨?_, ?_, ?_, ?_, ?_, ?_⟩
  · rw [show (ProjectionService.calculate_projection cv mc inc r vol years age target ta tax
      num_simulations cy g).deterministicPath
        = calculate_deterministic_projection cv mc inc r years age from rfl]
    constructor
    · simp [calculate_deterministic_projection]
    · simp only [calculate_deterministic_projection]
      exact map_year_range _ (fun y => rfl) _
  · intro path hp
    rw [hsample] at hp
    obtain ⟨s, _, rfl⟩ := List.mem_map.mp (List.take_subset _ _ hp)
    exact ⟨mcPath_length cv mc inc r vol years age _, mcPath_years cv mc inc r vol years age _⟩
  · rw [hsample, List.length_take, List.length_map, List.length_range, Nat.min_comm]
  · have h := hap fun n => g (num_simulations * years + n)
    have := aggregate_path_shape _ 50 years h.1 h.2
    rw [show (ProjectionService.calculate_projection cv mc inc r vol years age target ta tax
      num_simulations cy g).medianPath = calculate_median_path
        ((List.range num_simulations).map fun s =>
          mcPath cv mc inc r vol years age fun k =>
            g (num_simulations * years + (s * years + k))) years from rfl,
      calculate_median_path_eq, if_neg h.1]
    exact this
  · have h := hap fun n => g (num_simulations * years + n)
    have := aggregate_path_shape _ 10 years h.1 h.2
    rw [show (ProjectionService.calculate_projection cv mc inc r vol years age target ta tax
      num_simulations cy g).p10Path = (calculate_confidence_bands
        ((List.range num_simulations).map fun s =>
          mcPath cv mc inc r vol years age fun k =>
            g (num_simulations * years + (s * years + k))) years).1 from rfl,
      calculate_confidence_bands_eq, if_neg h.1]
    exact this
  · have h := hap fun n => g (num_simulations * years + n)
    have := aggregate_path_shape _ 90 years h.1 h.2
    rw [show (ProjectionService.calculate_projection cv mc inc r vol years age target ta tax
      num_simulations cy g).p90Path = (calculate_confidence_bands
        ((List.range num_simulations).map fun s =>
          mcPath cv mc inc r vol years age fun k =>
            g (num_simulations * years + (s * years + k))) years).2 from rfl,
      calculate_confidence_bands_eq, if_neg h.1]
    exact this

/-- C7 witness: the shape facts applied at a concrete request with
`years = 1`, `numSimulations = 1`. -/
theorem projection_path_lengths_witness :
    ((ProjectionService.calculate_projection 1 0 0 0 0 1 none none none 0 1 0
        fun _ => 0).deterministicPath.length = 1 + 1)
    ∧ (ProjectionService.calculate_projection 1 0 0 0 0 1 none none none 0 1 0
        fun _ => 0).deterministicPath.map (·.year) = List.range (1 + 1) :=
  (projection_path_lengths 1 0 0 0 0 0 1 1 none none none 0 (fun _ => 0) _ rfl
    (by decide) (by decide)).1

/-! ### C4: the engine actually runs two separate Monte Carlo populations -/

/-- The full population of paths produced by a simulator call on stream
`g` — for the first call of `calculate_projection`, the population whose
ending values feed the summary statistics. -/
def firstPassPaths (cv mc inc r vol : ℚ) (years num_simulations : ℕ)
    (current_age : Option ℕ) (target_amount : Option ℚ) (target_age : Option ℕ)
    (g : ℕ → ℚ) : List (List PathPoint) :=
  (run_monte_carlo_simulation cv mc inc r vol years num_simulations current_age
    target_amount target_age true g).1

/-- C4 as claimed: the aggregate paths of the result are the per-year
percentile aggregates of the same population whose ending values feed
the summary (the first pass). -/
def claimSinglePopulation (cv mc inc r vol tax : ℚ) (years num_simulations : ℕ)
    (current_age : Option ℕ) (target_amount : Option ℚ) (target_age : Option ℕ)
    (cy : ℤ) (g : ℕ → ℚ) : Prop :=
  (ProjectionService.calculate_projection cv mc inc r vol years current_age target_amount
      target_age tax num_simulations cy g).medianPath
    = calculate_median_path (firstPassPaths cv mc inc r vol years num_simulations
        current_age target_amount target_age g) years
  ∧ (ProjectionService.calculate_projection cv mc inc r vol years current_age target_amount
      target_age tax num_simulations cy g).p10Path
    = (calculate_confidence_bands (firstPassPaths cv mc inc r vol years num_simulations
        current_age target_amount target_age g) years).1
  ∧ (ProjectionService.calculate_projection cv mc inc r vol years current_age target_amount
      target_age tax num_simulations cy g).p90Path
    = (calculate_confidence_bands (firstPassPaths cv mc inc r vol years num_simulations
        current_age target_amount target_age g) years).2

/-- C4 counterexample: with one trial, one year, volatility 12 and the
random stream `0, 1, 2, …`, the first pass draws `0` (flat path, ending
value 100) while the aggregate paths are computed from a second,
independent pass that draws `1` (ending value 409600): the median path
does not aggregate the population whose ending values feed the
summary. -/
theorem projection_single_population_counterexample :
    ¬ claimSinglePopulation 100 0 0 0 12 0 1 1 none none none 0 (fun n => (n : ℚ)) := by
  intro h
  have h1 := h.1
  revert h1
  decide

/-- C4 amended: `calculate_projection` runs `run_monte_carlo_simulation`
twice, `numSimulations` trials per pass.  The UI sample, the
ending-value percentiles and the FI statistics come from the first
pass; `medianPath`, `p10Path` and `p90Path` are per-year percentile
aggregates over all paths of the second, independent pass (the random
stream continued at offset `numSimulations * years`). -/
theorem projection_two_pass_structure :
    ∀ (cv mc inc r vol tax : ℚ) (years num_simulations : ℕ) (age : Option ℕ)
      (target : Option ℚ) (ta : Option ℕ) (cy : ℤ) (g : ℕ → ℚ),
      (ProjectionService.calculate_projection cv mc inc r vol years age target ta tax
          num_simulations cy g).monteCarloPathsSample
        = (firstPassPaths cv mc inc r vol years num_simulations age target ta g).take 10
      ∧ (ProjectionService.calculate_projection cv mc inc r vol years age target ta tax
          num_simulations cy g).summary.medianEndingValue
        = round2 (calculate_percentile (run_monte_carlo_simulation cv mc inc r vol years
            num_simulations age target ta false g).2.1 50)
      ∧ (ProjectionService.calculate_projection cv mc inc r vol years age target ta tax
          num_simulations cy g).summary.p10EndingValue
        = round2 (calculate_percentile (run_monte_carlo_simulation cv mc inc r vol years
            num_simulations age target ta false g).2.1 10)
      ∧ (ProjectionService.calculate_projection cv mc inc r vol years age target ta tax
          num_simulations cy g).summary.p90EndingValue
        = round2 (calculate_percentile (run_monte_carlo_simulation cv mc inc r vol years
            num_simulations age target ta false g).2.1 90)
      ∧ (ProjectionService.calculate_projection cv mc inc r vol years age target ta tax
          num_simulations cy g).summary.estimatedFIYear
        = (calculate_fi_estimate (run_monte_carlo_simulation cv mc inc r vol years
            num_simulations age target ta false g).2.2 age cy).1
      ∧ (ProjectionService.calculate_projection cv mc inc r vol years age target ta tax
          num_simulations cy g).medianPath
        = calculate_median_path (firstPassPaths cv mc inc r vol years num_simulations
            age target ta fun n => g (num_simulations * years + n)) years
      ∧ (ProjectionService.calculate_projection cv mc inc r vol years age target ta tax
          num_simulations cy g).p10Path
        = (calculate_confidence_bands (firstPassPaths cv mc inc r vol years num_simulations
            age target ta fun n => g (num_simulations * years + n)) years).1
      ∧ (ProjectionService.calculate_projection cv mc inc r vol years age target ta tax
          num_simulations cy g).p90Path
        = (calculate_confidence_bands (firstPassPaths cv mc inc r vol years num_simulations
            age target ta fun n => g (num_simulations * years + n)) years).2 := by
  intro cv mc inc r vol tax years num_simulations age target ta cy g
  exact ⟨rfl, rfl, rfl, rfl, rfl, rfl, rfl, rfl⟩

/-! ### C5: the withdrawal-tax summary -/

/-- C5 counterexample: with `targetAmount = 5000`,
`effectiveTaxRatePct = 0.5` (inside the claimed fractional range
`[0, 0.6]`) and a median ending value of 10000, the code returns
`taxAmount = 2` — `grossWithdrawal * (0.5 / 100)` — not
`grossWithdrawal * 0.5 = 200` as the claim's equation demands: the code
treats `effectiveTaxRatePct` as a percentage (validated in `[0, 60]` by
the HTTP layer) and divides it by 100. -/
theorem tax_rate_is_percent_counterexample :
    (ProjectionService.calculate_projection 10000 0 0 0 0 1 none (some 5000) none (1/2) 1
        2025 fun _ => 0).summary.taxInfo
      = some { grossWithdrawal := 400, taxAmount := 2, netWithdrawal := 398,
               withdrawalRatePct := 4, taxRatePct := 1/2 }
    ∧ (2 : ℚ) ≠ 400 * (1/2) := by
  constructor
  · decide
  · decide

/-- C5 amended: `summary.taxInfo` is non-null iff `targetAmount` is set
and non-zero (Python truthiness) and `effectiveTaxRatePct > 0`; when
non-null it equals `calculate_tax_implications(finalValue, 4, rate)`
with `finalValue = medianEnding if medianEnding ≥ target else target`,
and `calculate_tax_implications` satisfies
`grossWithdrawal = round2(pv * 4/100)`,
`taxAmount = round2(pv * 4/100 * rate/100)` (the rate is a percentage,
divided by 100) and `netWithdrawal = round2(gross - tax)` before their
respective roundings. -/
theorem tax_info_spec :
    ∀ (cv mc inc r vol tax : ℚ) (years num_simulations : ℕ) (age : Option ℕ)
      (target : Option ℚ) (ta : Option ℕ) (cy : ℤ) (g : ℕ → ℚ),
      ((ProjectionService.calculate_projection cv mc inc r vol years age target ta tax
          num_simulations cy g).summary.taxInfo.isSome
        ↔ (targetTruthy target = true ∧ 0 < tax))
      ∧ (∀ t : ℚ, target = some t → t ≠ 0 → 0 < tax →
          (ProjectionService.calculate_projection cv mc inc r vol years age target ta tax
              num_simulations cy g).summary.taxInfo
            = some (calculate_tax_implications
                (if calculate_percentile (run_monte_carlo_simulation cv mc inc r vol years
                      num_simulations age target ta false g).2.1 50 ≥ t
                 then calculate_percentile (run_monte_carlo_simulation cv mc inc r vol years
                      num_simulations age target ta false g).2.1 50
                 else t) 4 tax))
      ∧ (∀ pv wr tr : ℚ,
          (calculate_tax_implications pv wr tr).grossWithdrawal = round2 (pv * (wr / 100))
          ∧ (calculate_tax_implications pv wr tr).taxAmount
              = round2 (pv * (wr / 100) * (tr / 100))
          ∧ (calculate_tax_implications pv wr tr).netWithdrawal
              = round2 (pv * (wr / 100) - pv * (wr / 100) * (tr / 100))) := by
  intro cv mc inc r vol tax years num_simulations age target ta cy g
  have hrfl : (ProjectionService.calculate_projection cv mc inc r vol years age target ta tax
      num_simulations cy g).summary.taxInfo =
      (if targetTruthy target && decide (0 < tax) then
        some (calculate_tax_implications
          (if calculate_percentile (run_monte_carlo_simulation cv mc inc r vol years
                num_simulations age target ta false g).2.1 50 ≥ target.getD 0
           then calculate_percentile (run_monte_carlo_simulation cv mc inc r vol years
                num_simulations age target ta false g).2.1 50
           else target.getD 0) 4 tax)
      else none) := rfl
  refine ⟨?_, ?_, ?_⟩
  · rw [hrfl]
    by_cases ht : targetTruthy target
    · by_cases htax : 0 < tax
      · simp [ht, htax]
      · simp [ht, htax]
    · simp [ht]
  · intro t htarget htne htax
    rw [hrfl]
    subst htarget
    have ht : targetTruthy (some t) = true := by
      simp [targetTruthy, htne]
    rw [ht]
    simp only [Option.getD_some, Bool.true_and, decide_eq_true htax, if_true]
  · intro pv wr tr
    exact ⟨rfl, rfl, rfl⟩

/-- C5 witness: the amended description applied at the concrete request
of the counterexample. -/
theorem tax_info_spec_witness :
    (ProjectionService.calculate_projection 10000 0 0 0 0 1 none (some 5000) none (1/2) 1
        2025 fun _ => 0).summary.taxInfo
      = some (calculate_tax_implications
          (if calculate_percentile (run_monte_carlo_simulation 10000 0 0 0 0 1 1 none
                (some 5000) none false fun _ => 0).2.1 50 ≥ 5000
           then calculate_percentile (run_monte_carlo_simulation 10000 0 0 0 0 1 1 none
                (some 5000) none false fun _ => 0).2.1 50
           else 5000) 4 (1/2)) :=
  (tax_info_spec 10000 0 0 0 0 (1/2) 1 1 none (some 5000) none 2025 fun _ => 0).2.1 5000
    rfl (by decide) (by decide)

/-! ### C8: the FI estimate and the `if current_age:` truthiness bug -/

/-- C8 counterexample: with one recorded FI offset `[1]` and
`currentAge = 0` — an `int ≥ 0` that is supplied — the code returns
`estimatedFIAge = None` (Python `if current_age:` treats `0` as
absent), not `currentAge + floor(medianOffset) = 1` as the claim
demands. -/
theorem fi_age_zero_counterexample :
    calculate_fi_estimate [1] (some 0) 2025 = (some 2026, none)
    ∧ (none : Option ℤ) ≠ some ((0 : ℤ) + 1) := by
  constructor
  · decide
  · decide

/-- C8 amended: on an empty collection both estimates are null;
otherwise `estimatedFIYear = currentCalendarYear + ⌊medianOffset⌋` with
`medianOffset = percentile(fiYears, 50)`, and
`estimatedFIAge = currentAge + ⌊medianOffset⌋` whenever `currentAge` is
supplied **and non-zero** (a supplied age of `0` is treated like an
absent age and yields null). -/
theorem fi_estimate_spec :
    ∀ (fi_years : List ℕ) (current_age : Option ℕ) (cy : ℤ),
      (fi_years = [] → calculate_fi_estimate fi_years current_age cy = (none, none))
      ∧ (fi_years ≠ [] →
          (calculate_fi_estimate fi_years current_age cy).1
            = some (cy + ⌊calculate_percentile (fi_years.map fun n : ℕ => (n : ℚ)) 50⌋)
          ∧ (calculate_fi_estimate fi_years current_age cy).2
            = match current_age with
              | none => none
              | some a => if a = 0 then none
                  else some ((a : ℤ) + ⌊calculate_percentile (fi_years.map fun n : ℕ => (n : ℚ)) 50⌋)) := by
  intro fi_years current_age cy
  constructor
  · intro h
    subst h
    rfl
  · intro h
    have hne : (fi_years.map fun n : ℕ => (n : ℚ)) ≠ [] := fun hmap =>
      h (List.map_eq_nil_iff.mp hmap)
    have hnonneg : 0 ≤ calculate_percentile (fi_years.map fun n : ℕ => (n : ℚ)) 50 := by
      have hmem := calculate_percentile_mem (fi_years.map fun n : ℕ => (n : ℚ)) 50 hne
      rw [List.mem_map] at hmem
      obtain ⟨a, ha, heq⟩ := hmem
      rw [← heq]
      exact Nat.cast_nonneg a
    have hpy : pyInt (calculate_percentile (fi_years.map fun n : ℕ => (n : ℚ)) 50)
        = ⌊calculate_percentile (fi_years.map fun n : ℕ => (n : ℚ)) 50⌋ := by
      unfold pyInt
      rw [if_pos hnonneg]
    unfold calculate_fi_estimate
    rw [if_neg h]
    constructor
    · show some (cy + pyInt (calculate_percentile (fi_years.map fun n : ℕ => (n : ℚ)) 50)) = _
      rw [hpy]
    · show (match current_age with
        | none => none
        | some a => if a = 0 then none
            else some ((a : ℤ) + pyInt (calculate_percentile (fi_years.map fun n : ℕ => (n : ℚ)) 50))) = _
      rw [hpy]

/-- C8 witness: the amended description applied at a concrete non-empty
collection with a non-zero age. -/
theorem fi_estimate_spec_witness :
    (calculate_fi_estimate [2] (some 30) 2025).1
      = some (2025 + ⌊calculate_percentile (([2] : List ℕ).map fun n : ℕ => (n : ℚ)) 50⌋) :=
  ((fi_estimate_spec [2] (some 30) 2025).2 (by decide)).1

/-! ### C9: which crossings count as a trial's FI year -/

theorem sorted_lt_range' (s n : ℕ) : (List.range' s n).Sorted (· < ·) := by
  induction n generalizing s with
  | zero => simp
  | succ k ih =>
      rw [List.range'_succ]
      refine List.sorted_cons.mpr ⟨?_, ih (s + 1)⟩
      intro b hb
      have := List.mem_range'_1.mp hb
      omega

/-- On a strictly sorted list of naturals, `find?` returns `y` exactly
when `y` is the least element of the list satisfying the predicate. -/
theorem find_first_sorted (p : ℕ → Bool) :
    ∀ l : List ℕ, l.Sorted (· < ·) → ∀ y : ℕ,
      (l.find? p = some y ↔
        (y ∈ l ∧ p y = true ∧ ∀ z ∈ l, z < y → p z = false)) := by
  intro l
  induction l with
  | nil =>
      intro _ y
      simp
  | cons a t ih =>
      intro hl y
      obtain ⟨hat, ht⟩ := List.sorted_cons.mp hl
      cases hpa : p a with
      | false =>
          rw [List.find?_cons_of_neg _ (by simp [hpa])]
          rw [ih ht y]
          constructor
          · rintro ⟨hy, hpy, hall⟩
            refine ⟨List.mem_cons_of_mem a hy, hpy, ?_⟩
            intro z hz hzy
            rcases List.mem_cons.mp hz with rfl | hz'
            · exact hpa
            · exact hall z hz' hzy
          · rintro ⟨hy, hpy, hall⟩
            rcases List.mem_cons.mp hy with rfl | hy'
            · rw [hpa] at hpy
              exact absurd hpy (by simp)
            · exact ⟨hy', hpy, fun z hz hzy => hall z (List.mem_cons_of_mem a hz) hzy⟩
      | true =>
          rw [List.find?_cons_of_pos _ (by simp [hpa])]
          constructor
          · intro h
            have ha : a = y := by simpa using h
            subst ha
            refine ⟨by simp, hpa, ?_⟩
            intro z hz hzy
            rcases List.mem_cons.mp hz with rfl | hz'
            · omega
            · exact absurd hzy (by have := hat z hz'; omega)
          · rintro ⟨hy, hpy, hall⟩
            rcases List.mem_cons.mp hy with rfl | hy'
            · rfl
            · have hay : a < y := hat y hy'
              have hfa := hall a (by simp) hay
              rw [hpa] at hfa
              exact absurd hfa (by simp)

/-- C9 counterexample: `currentAge = None`, `targetAge = 65`,
`targetAmount = 50`, one trial over one year with a flat value of 100:
the portfolio is above target at year 1 (a first crossing), yet the
trial records **no** FI year — with `targetAge` set and `currentAge`
missing, the guard `current_age and current_age + year <= target_age`
is always falsy, so no crossing ever counts, contradicting the claim
that a first crossing always counts when `currentAge` is null. -/
theorem fi_crossing_blocked_counterexample :
    (run_monte_carlo_simulation 100 0 0 0 0 1 1 none (some 50) (some 65) true
        fun _ => 0).2.2 = []
    ∧ (50 : ℚ) ≤ mcValue 100 0 0 0 0 (fun _ => 0) 1 := by
  constructor
  · decide
  · decide

/-- C9 amended: a trial's recorded FI year is exactly the least year
`y ∈ [1, years]` whose end-of-year (unrounded) value reaches
`targetAmount` **and** which passes the age guard, where the guard
passes iff `targetAge` is null, or `currentAge` is supplied, non-zero
and `currentAge + y ≤ targetAge`.  In particular, when `targetAge` is
set but `currentAge` is null (or 0) no crossing ever counts, while with
`targetAge` null every first crossing counts. -/
theorem fi_year_characterization :
    ∀ (cv mc inc r vol : ℚ) (years : ℕ) (age : Option ℕ) (target : Option ℚ)
      (ta : Option ℕ) (d : ℕ → ℚ) (y : ℕ),
      fiYearOfTrial cv mc inc r vol years age target ta d = some y
      ↔ ∃ t : ℚ, target = some t ∧ t ≠ 0 ∧ 1 ≤ y ∧ y ≤ years
          ∧ t ≤ mcValue cv mc inc r vol d y
          ∧ fiCapOk age ta y = true
          ∧ ∀ z : ℕ, 1 ≤ z → z < y →
              ¬ (t ≤ mcValue cv mc inc r vol d z ∧ fiCapOk age ta z = true) := by
  intro cv mc inc r vol years age target ta d y
  cases target with
  | none =>
      simp [fiYearOfTrial, targetTruthy]
  | some t =>
      by_cases htz : t = 0
      · subst htz
        simp [fiYearOfTrial, targetTruthy]
      · have htt : targetTruthy (some t) = true := by
          simp [targetTruthy, htz]
        unfold fiYearOfTrial
        rw [if_pos (by rw [htt])]
        rw [find_first_sorted _ _ (sorted_lt_range' 1 years) y]
        constructor
        · rintro ⟨hy, hp, hall⟩
          have hmem := List.mem_range'_1.mp hy
          rw [Bool.and_eq_true] at hp
          obtain ⟨hdec, hcap⟩ := hp
          have hval : t ≤ mcValue cv mc inc r vol d y := by
            have := of_decide_eq_true hdec
            simpa using this
          refine ⟨t, rfl, htz, by omega, by omega, hval, hcap, ?_⟩
          intro z h1z hzy hcon
          have hzmem : z ∈ List.range' 1 years := List.mem_range'_1.mpr ⟨h1z, by omega⟩
          have hfz := hall z hzmem hzy
          have hpz : (decide ((some t).getD 0 ≤ mcValue cv mc inc r vol d z)
              && fiCapOk age ta z) = true := by
            rw [Bool.and_eq_true]
            exact ⟨decide_eq_true (by simpa using hcon.1), hcon.2⟩
          rw [hfz] at hpz
          exact absurd hpz (by simp)
        · rintro ⟨t', ht', htz', h1y, hyy, hval, hcap, hall⟩
          injection ht' with hteq
          subst hteq
          refine ⟨List.mem_range'_1.mpr ⟨h1y, by omega⟩, ?_, ?_⟩
          · rw [Bool.and_eq_true]
            exact ⟨decide_eq_true (by simpa using hval), hcap⟩
          · intro z hz hzy
            have hmz := List.mem_range'_1.mp hz
            cases hpz : (decide ((some t).getD 0 ≤ mcValue cv mc inc r vol d z)
                && fiCapOk age ta z) with
            | false => rfl
            | true =>
                rw [Bool.and_eq_true] at hpz
                exact absurd ⟨by simpa using of_decide_eq_true hpz.1, hpz.2⟩
                  (hall z (by omega) hzy)
